import Mathlib

/-
Verification of the Fabric blockchain connector event-normalization and
contract-lifecycle machinery (internal/blockchain/fabric/fabric.go), against
the canonical data model of pkg/blockchain (Plugin / Callbacks / BatchPin).

Modelling conventions:
  - JSON values are modelled by the inductive `JSONValue`; a decoded JSON
    object (Go map[string]interface item, fftypes.JSONObject) is an
    association list.
  - the external base64+JSON decode of the fabconnect event payload
    (decodeJSONPayload, which composes encoding/base64 and fftypes
    JSONObjectOk from external libraries) is a parameter of type
    `PayloadDec`; `none` models any decode failure.
  - the host's registered callbacks (the `callbacks` fan-out) are a parameter
    `cb : CallbackCall -> Option ErrMsg`; `some e` models an error return.
  - handlers return the ordered list of callback invocations they perform
    (their trace) together with the Go error result.
  - machine integers are modelled as Int/Nat (no overflow is relevant here).
-/

namespace FF

/-- Model of a parsed JSON value (Go interface value produced by
encoding/json Unmarshal: null, bool, number, string, array, object). -/
inductive JSONValue where
  | null : JSONValue
  | bool (b : Bool) : JSONValue
  | num (n : Int) : JSONValue
  | str (s : String) : JSONValue
  | arr (xs : List JSONValue) : JSONValue
  | obj (fields : List (String × JSONValue)) : JSONValue

/-- Model of fftypes.JSONObject: a JSON object as an association list. -/
abbrev JSONObject := List (String × JSONValue)

/-- Model of fftypes.JSONObject.GetString: the value of the key when it is a
string, otherwise the empty string (also when the key is absent). -/
def getString (o : JSONObject) (k : String) : String :=
  match List.lookup k o with
  | some (JSONValue.str s) => s
  | _ => ""

/-- Model of fftypes.JSONObject.GetInt64: the value of the key when it is a
number (or a decimal string), otherwise 0. -/
def getInt64 (o : JSONObject) (k : String) : Int :=
  match List.lookup k o with
  | some (JSONValue.num n) => n
  | some (JSONValue.str s) => (String.toInt? s).getD 0
  | _ => 0

/-- Model of fftypes.JSONObject.GetStringArray: the elements of the array
value of the key, each converted to a string (non-string elements modelled
as the empty string); an absent or non-array value yields the empty list. -/
def getStringArray (o : JSONObject) (k : String) : List String :=
  match List.lookup k o with
  | some (JSONValue.arr xs) =>
    xs.map (fun v => match v with | JSONValue.str s => s | _ => "")
  | _ => []

/-- Model of fftypes.JSONObject.GetObject: the object value of the key, or
the empty object when absent or not an object. -/
def getObject (o : JSONObject) (k : String) : JSONObject :=
  match List.lookup k o with
  | some (JSONValue.obj fields) => fields
  | _ => []

/-- Value of a single hexadecimal digit character (encoding/hex semantics:
0-9, a-f, A-F), or `none` for any other character. -/
def hexDigitVal (c : Char) : Option Nat :=
  if '0' ≤ c ∧ c ≤ '9' then some (c.toNat - 48)
  else if 'a' ≤ c ∧ c ≤ 'f' then some (c.toNat - 87)
  else if 'A' ≤ c ∧ c ≤ 'F' then some (c.toNat - 55)
  else none

/-- Decode a list of hex digit characters two at a time into bytes; fails on
an odd number of characters or any non-hex character, like
encoding/hex.DecodeString. -/
def hexDecodeList : List Char → Option (List Nat)
  | [] => some []
  | [_] => none
  | c1 :: c2 :: rest =>
    match hexDigitVal c1, hexDigitVal c2, hexDecodeList rest with
    | some h, some l, some t => some ((16 * h + l) :: t)
    | _, _, _ => none

/-- Model of encoding/hex.DecodeString. -/
def hexDecode (s : String) : Option (List Nat) :=
  hexDecodeList s.data

/-- Model of strings.HasPrefix (the marker strings used here are ASCII, so
character-prefix and Go byte-prefix agree). -/
def strHasPfx (s pfx : String) : Bool :=
  List.isPrefixOf pfx.data s.data

/-- Drop the first n characters of a string (Go slice s[n:] for an ASCII
position n). -/
def strDropChars (s : String) (n : Nat) : String :=
  String.mk (List.drop n s.data)

/-- Model of strings.TrimPrefix(s, "0x"). -/
def trim0x (s : String) : String :=
  if strHasPfx s "0x" then strDropChars s 2 else s

/-- A 32-byte value (fftypes.Bytes32) as its list of bytes. -/
abbrev Bytes32 := List Nat

/-- A 16-byte UUID (fftypes.UUID) as its list of bytes. -/
abbrev UUID := List Nat

/-- Model of fftypes.Bytes32.UnmarshalText: strip an optional 0x prefix,
hex-decode, and require exactly 32 bytes. -/
def bytes32FromText (s : String) : Option Bytes32 :=
  match hexDecode (trim0x s) with
  | some bytes => if bytes.length = 32 then some bytes else none
  | none => none

/-- Substring search over character lists (Go strings.Contains). -/
def containsSubAux (sub : List Char) : List Char → Bool
  | [] => List.isEmpty sub
  | c :: rest => List.isPrefixOf sub (c :: rest) || containsSubAux sub rest

/-- Model of strings.Contains(s, sub). -/
def strContains (s sub : String) : Bool :=
  containsSubAux sub.data s.data

/-- Zero-padded decimal rendering of an integer to a minimum number of
digits (Go fmt precision flag, as in the format used for ProtocolID). -/
def padDec (width : Nat) (n : Int) : String :=
  let digits := toString n.natAbs
  let padded := String.mk (List.replicate (width - digits.length) '0') ++ digits
  if n < 0 then "-" ++ padded else padded

/-- ProtocolID construction from fabric.go parseBlockchainEvent:
blockNumber/transactionIndex/eventIndex zero-padded to 12/6/6 digits. -/
def fmtProtocolID (blockNumber transactionIndex eventIndex : Int) : String :=
  padDec 12 blockNumber ++ "/" ++ padDec 6 transactionIndex ++ "/" ++ padDec 6 eventIndex

/-- Verifier (signing identity) type; the fabric connector always uses
core.VerifierTypeMSPIdentity. -/
inductive VerifierType where
  | MSPIdentity : VerifierType

/-- Model of core.VerifierRef. -/
structure VerifierRef where
  type : VerifierType
  value : String

/-- Operation status (core.OpStatus); only the two values written by the
fabric receipt handler are modelled. -/
inductive OpStatus where
  | succeeded : OpStatus
  | failed : OpStatus

/-- Model of blockchain.Event. Field nspace is unused by fabric events;
timestamp is kept as the raw unix value passed to fftypes.UnixTime. -/
structure Event where
  source : String
  name : String
  protocolID : String
  output : JSONObject
  info : JSONObject
  timestamp : Int
  blockchainTXID : String
  location : String
  signature : String

/-- Model of blockchain.EventWithSubscription. -/
structure EventWithSubscription where
  event : Event
  subscription : String

/-- Model of blockchain.BatchPin (field nspace models the Go field named
after the package-reserved word for a namespace). -/
structure BatchPin where
  nspace : String
  transactionID : UUID
  batchID : UUID
  batchHash : Bytes32
  batchPayloadRef : String
  contexts : List Bytes32
  event : Event

/-- One invocation of a host callback (blockchain.Callbacks), recorded with
the exact arguments the connector passed. -/
inductive CallbackCall where
  | batchPinComplete (batch : BatchPin) (signingKey : VerifierRef) : CallbackCall
  | blockchainNetworkAction (action : String) (event : Event) (signingKey : VerifierRef) : CallbackCall
  | blockchainEvent (event : EventWithSubscription) : CallbackCall
  | blockchainOpUpdate (nsOpID : String) (txState : OpStatus) (blockchainTXID : String) (errorMessage : String) (opOutput : JSONObject) : CallbackCall

/-- Error results are carried as their message strings. -/
abbrev ErrMsg := String

/-- The host's registered callbacks, as one function: the composite
first-error-aborts fan-out of the connector's `callbacks` struct.
`none` is a nil error return. -/
abbrev Cb := CallbackCall → Option ErrMsg

/-- The external base64+JSON payload decoder (decodeJSONPayload's use of
encoding/base64 and fftypes JSONObjectOk); `none` models any failure. -/
abbrev PayloadDec := String → Option JSONObject

/-- Perform one callback invocation: the trace records it, and the result is
whatever the host returned. -/
def invoke (cb : Cb) (c : CallbackCall) : List CallbackCall × Option ErrMsg :=
  ([c], cb c)

/-- The reserved network-action namespace marker, blockchain
package constant (the string literal before an action name). -/
def fireflyActionPfx : String := "firefly:"

/-- Source constant broadcastBatchEventName. -/
def broadcastBatchEventName : String := "BatchPin"

/-- Source function buildEventLocationString. -/
def buildEventLocationString (chaincode : String) : String :=
  "chaincode=" ++ chaincode

/-- Model of fabric.go parseBlockchainEvent: decode the payload (external
decode `dec`), then build the normalized Event; Info is the message with the
payload key deleted; a payload decode failure yields none (move on). -/
def parseBlockchainEvent (dec : PayloadDec) (msgJSON : JSONObject) : Option Event :=
  let payloadString := getString msgJSON "payload"
  match dec payloadString with
  | none => none
  | some payload =>
    let sTransactionHash := getString msgJSON "transactionId"
    let blockNumber := getInt64 msgJSON "blockNumber"
    let transactionIndex := getInt64 msgJSON "transactionIndex"
    let eventIndex := getInt64 msgJSON "eventIndex"
    let name := getString msgJSON "eventName"
    let timestamp := getInt64 msgJSON "timestamp"
    let chaincode := getString msgJSON "chaincodeId"
    some {
      blockchainTXID := sTransactionHash
      source := "fabric"
      name := name
      protocolID := fmtProtocolID blockNumber transactionIndex eventIndex
      output := payload
      info := msgJSON.filter (fun kv => kv.1 != "payload")
      timestamp := timestamp
      location := buildEventLocationString chaincode
      signature := name }

/-- Decode of the contexts array in handleBatchPinEvent: every entry must
parse as a Bytes32 or the whole message is skipped (all-or-nothing). -/
def decodeContexts : List String → Option (List Bytes32)
  | [] => some []
  | s :: rest =>
    match bytes32FromText s, decodeContexts rest with
    | some h, some t => some (h :: t)
    | _, _ => none

/-- Model of fabric.go handleBatchPinEvent: parse the event, detect the
network-action marker, decode uuids/batchHash/contexts (skipping the message
with a nil error on any decode failure), and invoke the matching callback. -/
def handleBatchPinEvent (dec : PayloadDec) (cb : Cb) (msgJSON : JSONObject) :
    List CallbackCall × Option ErrMsg :=
  match parseBlockchainEvent dec msgJSON with
  | none => ([], none)
  | some event =>
    let signer := getString event.output "signer"
    let nsOrAction := getString event.output "namespace"
    let sUUIDs := getString event.output "uuids"
    let sBatchHash := getString event.output "batchHash"
    let sPayloadRef := getString event.output "payloadRef"
    let sContexts := getStringArray event.output "contexts"
    let verifier : VerifierRef := ⟨VerifierType.MSPIdentity, signer⟩
    if strHasPfx nsOrAction fireflyActionPfx then
      let action := strDropChars nsOrAction (List.length fireflyActionPfx.data)
      invoke cb (CallbackCall.blockchainNetworkAction action event verifier)
    else
      match hexDecode (trim0x sUUIDs) with
      | none => ([], none)
      | some hexUUIDs =>
        if hexUUIDs.length ≠ 32 then ([], none)
        else
          let txnID : UUID := hexUUIDs.take 16
          let batchID : UUID := hexUUIDs.drop 16
          match bytes32FromText sBatchHash with
          | none => ([], none)
          | some batchHash =>
            match decodeContexts sContexts with
            | none => ([], none)
            | some contexts =>
              let batch : BatchPin := {
                nspace := nsOrAction
                transactionID := txnID
                batchID := batchID
                batchHash := batchHash
                batchPayloadRef := sPayloadRef
                contexts := contexts
                event := event }
              invoke cb (CallbackCall.batchPinComplete batch verifier)

/-- Model of fabric.go handleContractEvent: parse the event and dispatch it
with its subscription ID via BlockchainEvent. -/
def handleContractEvent (dec : PayloadDec) (cb : Cb) (msgJSON : JSONObject) :
    List CallbackCall × Option ErrMsg :=
  match parseBlockchainEvent dec msgJSON with
  | none => ([], none)
  | some event =>
    invoke cb (CallbackCall.blockchainEvent ⟨event, getString msgJSON "subId"⟩)

/-- Model of fabric.go handleReceipt: requires non-empty requestId and type
in the headers; maps type TransactionSuccess to succeeded and anything else
to failed; BlockchainOpUpdate has no error return. -/
def handleReceipt (reply : JSONObject) : List CallbackCall :=
  let headers := getObject reply "headers"
  let requestID := getString headers "requestId"
  let replyType := getString headers "type"
  let txHash := getString reply "transactionId"
  let message := getString reply "errorMessage"
  if requestID = "" ∨ replyType = "" then []
  else
    let updateType := if replyType ≠ "TransactionSuccess" then OpStatus.failed else OpStatus.succeeded
    [CallbackCall.blockchainOpUpdate requestID updateType txHash message reply]

/-- Per-message dispatch from the loop body of handleMessageBatch: a message
on the active BatchPin subscription is handled as a BatchPin event when
named so and ignored otherwise; any other subscription goes to the
custom-contract event path. -/
def dispatchMessage (dec : PayloadDec) (cb : Cb) (fireflySub : String) (msgJSON : JSONObject) :
    List CallbackCall × Option ErrMsg :=
  if getString msgJSON "subId" = fireflySub then
    if getString msgJSON "eventName" = broadcastBatchEventName then
      handleBatchPinEvent dec cb msgJSON
    else ([], none)
  else
    handleContractEvent dec cb msgJSON

/-- Model of fabric.go handleMessageBatch: iterate the messages in order; an
element that is not a JSON object returns nil immediately (swallowed, the
remainder of the batch is not processed); a dispatch error is returned
immediately; otherwise traces accumulate in order. -/
def handleMessageBatch (dec : PayloadDec) (cb : Cb) (fireflySub : String) :
    List JSONValue → List CallbackCall × Option ErrMsg
  | [] => ([], none)
  | JSONValue.obj m :: rest =>
    match dispatchMessage dec cb fireflySub m with
    | (t, some e) => (t, some e)
    | (t, none) =>
      let r := handleMessageBatch dec cb fireflySub rest
      (t ++ r.1, r.2)
  | _ :: _ => ([], none)

/-- The ack control frame sent by the event loop
(type ack with the configured topic). -/
structure AckFrame where
  type : String
  topic : String

/-- Outcome of one event-loop iteration on an inbound frame: ack sent and
loop continues, no ack and loop continues, or loop exits without acking. -/
inductive LoopEffect where
  | ackContinue (ack : AckFrame) : LoopEffect
  | continueLoop : LoopEffect
  | exitLoop : LoopEffect

/-- Model of one iteration of fabric.go eventLoop on a received frame:
`none` is an unparseable frame (swallowed); an array is a message batch
(acked only when handleMessageBatch returns nil, loop exit on error); an
object is a receipt; anything else is swallowed. -/
def processFrame (dec : PayloadDec) (cb : Cb) (topic fireflySub : String) :
    Option JSONValue → List CallbackCall × LoopEffect
  | none => ([], LoopEffect.continueLoop)
  | some (JSONValue.arr msgs) =>
    match handleMessageBatch dec cb fireflySub msgs with
    | (t, none) => (t, LoopEffect.ackContinue ⟨"ack", topic⟩)
    | (t, some _) => (t, LoopEffect.exitLoop)
  | some (JSONValue.obj reply) => (handleReceipt reply, LoopEffect.continueLoop)
  | some _ => ([], LoopEffect.continueLoop)

/-- One entry of the indexed fireflyContract configuration array, with the
values GetString returns for the chaincode and fromBlock keys. -/
structure ContractConfEntry where
  chaincode : String
  fromBlock : String

/-- Static configuration the contract lifecycle reads: the default channel,
the event stream ID established by Init, the indexed contract config array,
and the deprecated single-chaincode key of the old config. -/
structure FabricConf where
  defaultChannel : String
  streamID : String
  contractConf : List ContractConfEntry
  deprecatedChaincode : String

/-- Source constant networkVersionMethodName. -/
def networkVersionMethodName : String := "NetworkVersion"

/-- Source value core.SubOptsFirstEventOldest. -/
def subOptsFirstEventOldest : String := "oldest"

/-- Chain location of a chaincode (fabric.go Location). -/
structure Location where
  channel : String
  chaincode : String

/-- A subscription returned by the stream manager; only its ID is read. -/
structure SubInfo where
  id : String

/-- Modelled from the spec: the stream/subscription manager and the
fabconnect query round-trip (streams.ensureFireFlySubscription and
queryContractMethod's HTTP call) are not part of the embedded code; per
spec section 4.2 they are synchronous calls returning either a result or a
wrapped error carrying the remote error text. They are modelled as an
environment of two functions. -/
structure FabricEnv where
  ensureFireFlySub : Location → String → String → String → Except ErrMsg SubInfo
  networkVersionQuery : String → Except ErrMsg Int

/-- Model of fabric.go resolveFireFlyContract: the indexed array config is
used when it is non-empty or the index is positive (failing on an
out-of-range index or empty chaincode); otherwise the deprecated single
chaincode key is used with fromBlock oldest, failing when unset. -/
def resolveFireFlyContract (conf : FabricConf) (contractIndex : Nat) :
    Except ErrMsg (String × String) :=
  if conf.contractConf.length > 0 ∨ contractIndex > 0 then
    if contractIndex ≥ conf.contractConf.length then
      Except.error ("invalid FireFly contract index blockchain.fabric.fireflyContract[" ++ toString contractIndex ++ "]")
    else
      let entry := conf.contractConf.getD contractIndex ⟨"", ""⟩
      if entry.chaincode = "" then
        Except.error "missing config chaincode for blockchain.fabric.fireflyContract"
      else
        Except.ok (entry.chaincode, entry.fromBlock)
  else
    if conf.deprecatedChaincode ≠ "" then
      Except.ok (conf.deprecatedChaincode, subOptsFirstEventOldest)
    else
      Except.error "missing config chaincode for blockchain.fabric.fabconnect"

/-- Model of fabric.go getNetworkVersion: a query failure whose error text
contains the method-not-found message is treated as version 1 with no
error; any other failure is returned; a successful query returns the
reported version. -/
def getNetworkVersion (env : FabricEnv) (chaincode : String) : Except ErrMsg Int :=
  match env.networkVersionQuery chaincode with
  | Except.error e =>
    if strContains e ("Function " ++ networkVersionMethodName ++ " not found") then
      Except.ok 1
    else
      Except.error e
  | Except.ok v => Except.ok v

/-- The Info blob ConfigureContract publishes into the active contract
record: chaincode, fromBlock and subscription ID. -/
structure ActiveContractInfo where
  chaincode : String
  fromBlock : String
  subscription : String

/-- Modelled from the spec: core.FireFlyContractInfo (pkg/core is not under
src/), per spec section 3: an index into the configured deployments, the
FinalEvent protocol ID stamped at termination (empty until then), and the
connector-published info blob (none until published). -/
structure FireFlyContractInfo where
  index : Nat
  finalEvent : String
  info : Option ActiveContractInfo

/-- Modelled from the spec: core.FireFlyContracts (pkg/core is not under
src/), per spec section 3: one active record and the append-only list of
terminated records. -/
structure FireFlyContracts where
  active : FireFlyContractInfo
  terminated : List FireFlyContractInfo

/-- The mutex-guarded fireflyContract runtime state of the connector. -/
structure FireflyContractState where
  chaincode : String
  fromBlock : String
  networkVersion : Int
  subscription : String

/-- Model of fabric.go ConfigureContract: resolve the active index to a
chaincode and fromBlock, ensure the BatchPin subscription, query the
network version, and only on full success publish the runtime state and the
active record's info; on any failure both are left unchanged and the error
is returned. -/
def ConfigureContract (env : FabricEnv) (conf : FabricConf)
    (st : FireflyContractState) (contracts : FireFlyContracts) :
    (FireflyContractState × FireFlyContracts) × Option ErrMsg :=
  match resolveFireFlyContract conf contracts.active.index with
  | Except.error e => ((st, contracts), some e)
  | Except.ok (chaincode, fromBlock) =>
    match env.ensureFireFlySub ⟨conf.defaultChannel, chaincode⟩ fromBlock conf.streamID broadcastBatchEventName with
    | Except.error e => ((st, contracts), some e)
    | Except.ok sub =>
      match getNetworkVersion env chaincode with
      | Except.error e => ((st, contracts), some e)
      | Except.ok version =>
        ((⟨chaincode, fromBlock, version, sub.id⟩,
          { contracts with active := { contracts.active with
              info := some ⟨chaincode, fromBlock, sub.id⟩ } }),
         none)

/-- Model of fabric.go TerminateContract: when the event's chaincodeId does
not match the active runtime chaincode, ignore it (nil error, nothing
changed); otherwise stamp the active record's FinalEvent with the event's
ProtocolID, append it to Terminated, replace the active record by the bare
next-index record, and configure the next deployment. -/
def TerminateContract (env : FabricEnv) (conf : FabricConf)
    (st : FireflyContractState) (contracts : FireFlyContracts)
    (termination : Event) :
    (FireflyContractState × FireFlyContracts) × Option ErrMsg :=
  let chaincode := getString termination.info "chaincodeId"
  if chaincode ≠ st.chaincode then
    ((st, contracts), none)
  else
    let stamped : FireFlyContractInfo := { contracts.active with finalEvent := termination.protocolID }
    let contracts1 : FireFlyContracts := {
      active := ⟨contracts.active.index + 1, "", none⟩
      terminated := contracts.terminated ++ [stamped] }
    ConfigureContract env conf st contracts1

/-- Successful context decoding is element-wise and order/length
preserving. -/
theorem decodeContexts_spec (ss : List String) (cs : List Bytes32)
    (h : decodeContexts ss = some cs) :
    List.map some cs = List.map bytes32FromText ss ∧ cs.length = ss.length := by
  induction ss generalizing cs with
  | nil =>
    simp only [decodeContexts, Option.some.injEq] at h
    subst h
    simp
  | cons s rest ih =>
    simp only [decodeContexts] at h
    cases hb : bytes32FromText s with
    | none => rw [hb] at h; simp at h
    | some b =>
      rw [hb] at h
      cases hr : decodeContexts rest with
      | none => rw [hr] at h; simp at h
      | some t =>
        rw [hr] at h
        simp only [Option.some.injEq] at h
        subst h
        obtain ⟨h1, h2⟩ := ih t hr
        simp [hb, h1, h2]

/-- C1: for a well-formed BatchPin event on the active subscription (payload
decodes, the namespace is not a network action, the packed uuids field
hex-decodes to 32 bytes, the batch hash and every context decode),
handleBatchPinEvent invokes BatchPinComplete exactly once, with
TransactionID the first 16 bytes and BatchID the last 16 bytes of the
decoded uuids, BatchHash the decoded hash, and Contexts element-wise equal,
in order and in length, to the event's contexts array. -/
theorem c1_handleBatchPinEvent_ok (dec : PayloadDec) (cb : Cb)
    (msgJSON pl : JSONObject) (u : List Nat) (h32 : Bytes32)
    (ctxs : List Bytes32)
    (hdec : dec (getString msgJSON "payload") = some pl)
    (hns : strHasPfx (getString pl "namespace") fireflyActionPfx = false)
    (hu : hexDecode (trim0x (getString pl "uuids")) = some u)
    (hlen : u.length = 32)
    (hh : bytes32FromText (getString pl "batchHash") = some h32)
    (hc : decodeContexts (getStringArray pl "contexts") = some ctxs) :
    ∃ ev : Event, parseBlockchainEvent dec msgJSON = some ev ∧
      handleBatchPinEvent dec cb msgJSON =
        ([CallbackCall.batchPinComplete
            ⟨getString pl "namespace", u.take 16, u.drop 16, h32,
             getString pl "payloadRef", ctxs, ev⟩
            ⟨VerifierType.MSPIdentity, getString pl "signer"⟩],
         cb (CallbackCall.batchPinComplete
            ⟨getString pl "namespace", u.take 16, u.drop 16, h32,
             getString pl "payloadRef", ctxs, ev⟩
            ⟨VerifierType.MSPIdentity, getString pl "signer"⟩)) ∧
      List.map some ctxs = List.map bytes32FromText (getStringArray pl "contexts") ∧
      ctxs.length = (getStringArray pl "contexts").length := by
  have hev : parseBlockchainEvent dec msgJSON = some {
      blockchainTXID := getString msgJSON "transactionId"
      source := "fabric"
      name := getString msgJSON "eventName"
      protocolID := fmtProtocolID (getInt64 msgJSON "blockNumber")
        (getInt64 msgJSON "transactionIndex") (getInt64 msgJSON "eventIndex")
      output := pl
      info := msgJSON.filter (fun kv => kv.1 != "payload")
      timestamp := getInt64 msgJSON "timestamp"
      location := buildEventLocationString (getString msgJSON "chaincodeId")
      signature := getString msgJSON "eventName" } := by
    simp only [parseBlockchainEvent]
    rw [hdec]
  refine ⟨_, hev, ?_, ?_⟩
  · simp only [handleBatchPinEvent]
    rw [hev]
    simp only [hns, hu, hh, hc, Bool.false_eq_true, if_false, hlen, invoke]
    simp
  · obtain ⟨h1, h2⟩ := decodeContexts_spec _ _ hc
    exact ⟨h1, h2⟩

/-- C3: for an event on the active BatchPin subscription whose decoded
namespace begins with the action marker firefly:, BatchPinComplete is never
invoked; BlockchainNetworkAction is invoked with the marker stripped, the
event and the signer's verifier ref. -/
theorem c3_networkAction (dec : PayloadDec) (cb : Cb) (msgJSON pl : JSONObject)
    (hdec : dec (getString msgJSON "payload") = some pl)
    (hns : strHasPfx (getString pl "namespace") fireflyActionPfx = true) :
    ∃ ev : Event, parseBlockchainEvent dec msgJSON = some ev ∧
      handleBatchPinEvent dec cb msgJSON =
        ([CallbackCall.blockchainNetworkAction
            (strDropChars (getString pl "namespace") (List.length fireflyActionPfx.data)) ev
            ⟨VerifierType.MSPIdentity, getString pl "signer"⟩],
         cb (CallbackCall.blockchainNetworkAction
            (strDropChars (getString pl "namespace") (List.length fireflyActionPfx.data)) ev
            ⟨VerifierType.MSPIdentity, getString pl "signer"⟩)) ∧
      (∀ b v, CallbackCall.batchPinComplete b v ∉ (handleBatchPinEvent dec cb msgJSON).1) := by
  have hev : parseBlockchainEvent dec msgJSON = some {
      blockchainTXID := getString msgJSON "transactionId"
      source := "fabric"
      name := getString msgJSON "eventName"
      protocolID := fmtProtocolID (getInt64 msgJSON "blockNumber")
        (getInt64 msgJSON "transactionIndex") (getInt64 msgJSON "eventIndex")
      output := pl
      info := msgJSON.filter (fun kv => kv.1 != "payload")
      timestamp := getInt64 msgJSON "timestamp"
      location := buildEventLocationString (getString msgJSON "chaincodeId")
      signature := getString msgJSON "eventName" } := by
    simp only [parseBlockchainEvent]
    rw [hdec]
  have hmain : handleBatchPinEvent dec cb msgJSON =
      ([CallbackCall.blockchainNetworkAction
          (strDropChars (getString pl "namespace") (List.length fireflyActionPfx.data))
          { blockchainTXID := getString msgJSON "transactionId"
            source := "fabric"
            name := getString msgJSON "eventName"
            protocolID := fmtProtocolID (getInt64 msgJSON "blockNumber")
              (getInt64 msgJSON "transactionIndex") (getInt64 msgJSON "eventIndex")
            output := pl
            info := msgJSON.filter (fun kv => kv.1 != "payload")
            timestamp := getInt64 msgJSON "timestamp"
            location := buildEventLocationString (getString msgJSON "chaincodeId")
            signature := getString msgJSON "eventName" }
          ⟨VerifierType.MSPIdentity, getString pl "signer"⟩],
       cb (CallbackCall.blockchainNetworkAction
          (strDropChars (getString pl "namespace") (List.length fireflyActionPfx.data))
          { blockchainTXID := getString msgJSON "transactionId"
            source := "fabric"
            name := getString msgJSON "eventName"
            protocolID := fmtProtocolID (getInt64 msgJSON "blockNumber")
              (getInt64 msgJSON "transactionIndex") (getInt64 msgJSON "eventIndex")
            output := pl
            info := msgJSON.filter (fun kv => kv.1 != "payload")
            timestamp := getInt64 msgJSON "timestamp"
            location := buildEventLocationString (getString msgJSON "chaincodeId")
            signature := getString msgJSON "eventName" }
          ⟨VerifierType.MSPIdentity, getString pl "signer"⟩)) := by
    simp only [handleBatchPinEvent]
    rw [hev]
    simp only [hns, if_true, invoke]
  refine ⟨_, hev, hmain, ?_⟩
  intro b v hmem
  rw [hmain] at hmem
  simp at hmem

/-- Concrete decoded BatchPin payload used as witness data. -/
def payload0 : JSONObject := [
  ("signer", JSONValue.str "signer1"),
  ("namespace", JSONValue.str "ns1"),
  ("uuids", JSONValue.str "0x000102030405060708090a0b0c0d0e0f101112131415161718191a1b1c1d1e1f"),
  ("batchHash", JSONValue.str "0x1111111111111111111111111111111111111111111111111111111111111111"),
  ("payloadRef", JSONValue.str "Qmf412jQ"),
  ("contexts", JSONValue.arr [JSONValue.str "0x2222222222222222222222222222222222222222222222222222222222222222"])]

/-- Concrete inbound fabconnect message used as witness data. -/
def msg0 : JSONObject := [
  ("payload", JSONValue.str "payload-batchpin"),
  ("subId", JSONValue.str "sb-0001"),
  ("eventName", JSONValue.str "BatchPin"),
  ("blockNumber", JSONValue.num 38011),
  ("transactionIndex", JSONValue.num 0),
  ("eventIndex", JSONValue.num 50),
  ("transactionId", JSONValue.str "0xabc1"),
  ("timestamp", JSONValue.num 1620576488),
  ("chaincodeId", JSONValue.str "firefly_cc")]

/-- Concrete payload decoder for the witness data. -/
def dec0 : PayloadDec := fun s => if s = "payload-batchpin" then some payload0 else none

/-- Concrete host callbacks that always succeed. -/
def cb0 : Cb := fun _ => none

/-- Witness for C1 at the concrete message msg0. -/
theorem c1_witness :
    hexDecode (trim0x (getString payload0 "uuids")) = some (List.range 32) ∧
    (∃ ev : Event, parseBlockchainEvent dec0 msg0 = some ev ∧
      handleBatchPinEvent dec0 cb0 msg0 =
        ([CallbackCall.batchPinComplete
            ⟨getString payload0 "namespace", (List.range 32).take 16, (List.range 32).drop 16,
             List.replicate 32 17, getString payload0 "payloadRef", [List.replicate 32 34], ev⟩
            ⟨VerifierType.MSPIdentity, getString payload0 "signer"⟩],
         cb0 (CallbackCall.batchPinComplete
            ⟨getString payload0 "namespace", (List.range 32).take 16, (List.range 32).drop 16,
             List.replicate 32 17, getString payload0 "payloadRef", [List.replicate 32 34], ev⟩
            ⟨VerifierType.MSPIdentity, getString payload0 "signer"⟩)) ∧
      List.map some [(List.replicate 32 34 : Bytes32)] =
        List.map bytes32FromText (getStringArray payload0 "contexts") ∧
      [(List.replicate 32 34 : Bytes32)].length = (getStringArray payload0 "contexts").length) :=
  ⟨by decide,
   c1_handleBatchPinEvent_ok dec0 cb0 msg0 payload0 (List.range 32)
     (List.replicate 32 17) [List.replicate 32 34]
     rfl (by decide) (by decide) (by decide) (by decide) (by decide)⟩

/-- Concrete decoded network-action payload used as witness data. -/
def payloadA : JSONObject := [
  ("signer", JSONValue.str "signer2"),
  ("namespace", JSONValue.str "firefly:terminate")]

/-- Concrete inbound network-action message used as witness data. -/
def msgA : JSONObject := [
  ("payload", JSONValue.str "payload-action"),
  ("subId", JSONValue.str "sb-0001"),
  ("eventName", JSONValue.str "BatchPin")]

/-- Concrete payload decoder for the network-action witness data. -/
def decA : PayloadDec := fun s => if s = "payload-action" then some payloadA else none

/-- Witness for C3 at the concrete message msgA. -/
theorem c3_witness :
    strHasPfx (getString payloadA "namespace") fireflyActionPfx = true ∧
    (∃ ev : Event, parseBlockchainEvent decA msgA = some ev ∧
      handleBatchPinEvent decA cb0 msgA =
        ([CallbackCall.blockchainNetworkAction
            (strDropChars (getString payloadA "namespace") (List.length fireflyActionPfx.data)) ev
            ⟨VerifierType.MSPIdentity, getString payloadA "signer"⟩],
         cb0 (CallbackCall.blockchainNetworkAction
            (strDropChars (getString payloadA "namespace") (List.length fireflyActionPfx.data)) ev
            ⟨VerifierType.MSPIdentity, getString payloadA "signer"⟩)) ∧
      (∀ b v, CallbackCall.batchPinComplete b v ∉ (handleBatchPinEvent decA cb0 msgA).1)) :=
  ⟨by decide, c3_networkAction decA cb0 msgA payloadA rfl (by decide)⟩

/-- handleBatchPinEvent either performs no callback and returns nil, or
performs exactly one callback and returns that callback's result. -/
theorem handleBatchPinEvent_shape (dec : PayloadDec) (cb : Cb) (m : JSONObject) :
    handleBatchPinEvent dec cb m = ([], none) ∨
    ∃ c, handleBatchPinEvent dec cb m = ([c], cb c) := by
  cases h : handleBatchPinEvent dec cb m with
  | mk t e =>
    unfold handleBatchPinEvent invoke at h
    repeat' (first | split at h | simp only [] at h)
    all_goals first
      | exact Or.inl h.symm
      | exact Or.inr ⟨_, h.symm⟩

/-- handleContractEvent either performs no callback and returns nil, or
performs exactly one callback and returns that callback's result. -/
theorem handleContractEvent_shape (dec : PayloadDec) (cb : Cb) (m : JSONObject) :
    handleContractEvent dec cb m = ([], none) ∨
    ∃ c, handleContractEvent dec cb m = ([c], cb c) := by
  unfold handleContractEvent invoke
  split
  · exact Or.inl rfl
  · exact Or.inr ⟨_, rfl⟩

/-- dispatchMessage either performs no callback and returns nil, or performs
exactly one callback and returns that callback's result. -/
theorem dispatchMessage_shape (dec : PayloadDec) (cb : Cb) (sub : String) (m : JSONObject) :
    dispatchMessage dec cb sub m = ([], none) ∨
    ∃ c, dispatchMessage dec cb sub m = ([c], cb c) := by
  unfold dispatchMessage
  split
  · split
    · exact handleBatchPinEvent_shape dec cb m
    · exact Or.inl rfl
  · exact handleContractEvent_shape dec cb m

/-- handleMessageBatch returns an error precisely when one of the callback
invocations it performed returned an error. -/
theorem handleMessageBatch_err_iff (dec : PayloadDec) (cb : Cb) (sub : String)
    (msgs : List JSONValue) :
    ((handleMessageBatch dec cb sub msgs).2.isSome ↔
      ∃ c ∈ (handleMessageBatch dec cb sub msgs).1, (cb c).isSome) := by
  induction msgs with
  | nil => simp [handleMessageBatch]
  | cons v rest ih =>
    cases v with
    | obj m =>
      rcases dispatchMessage_shape dec cb sub m with h | ⟨c, h⟩
      · simp only [handleMessageBatch, h]
        simpa using ih
      · cases hc : cb c with
        | some e =>
          rw [hc] at h
          simp [handleMessageBatch, h, hc]
        | none =>
          rw [hc] at h
          simp only [handleMessageBatch, h]
          simp only [List.cons_append, List.nil_append, List.mem_cons, exists_eq_or_imp, hc,
            Option.isSome_none, Bool.false_eq_true, false_or]
          simpa using ih
    | null => simp [handleMessageBatch]
    | bool b => simp [handleMessageBatch]
    | num n => simp [handleMessageBatch]
    | str s => simp [handleMessageBatch]
    | arr xs => simp [handleMessageBatch]

/-- C2: for an inbound array frame, the event loop sends the ack frame for
the configured topic exactly when handleMessageBatch returns nil; on a
non-nil error the loop exits without acking; and the error is non-nil
exactly when some downstream callback invocation returned an error. -/
theorem c2_eventLoop_ack_iff (dec : PayloadDec) (cb : Cb) (topic fireflySub : String)
    (msgs : List JSONValue) :
    ((handleMessageBatch dec cb fireflySub msgs).2 = none →
      processFrame dec cb topic fireflySub (some (JSONValue.arr msgs)) =
        ((handleMessageBatch dec cb fireflySub msgs).1, LoopEffect.ackContinue ⟨"ack", topic⟩)) ∧
    ((handleMessageBatch dec cb fireflySub msgs).2 ≠ none →
      processFrame dec cb topic fireflySub (some (JSONValue.arr msgs)) =
        ((handleMessageBatch dec cb fireflySub msgs).1, LoopEffect.exitLoop)) ∧
    ((handleMessageBatch dec cb fireflySub msgs).2.isSome ↔
      ∃ c ∈ (handleMessageBatch dec cb fireflySub msgs).1, (cb c).isSome) := by
  refine ⟨?_, ?_, handleMessageBatch_err_iff dec cb fireflySub msgs⟩
  · intro h
    simp only [processFrame]
    cases hr : handleMessageBatch dec cb fireflySub msgs with
    | mk t r =>
      rw [hr] at h
      subst h
      rfl
  · intro h
    simp only [processFrame]
    cases hr : handleMessageBatch dec cb fireflySub msgs with
    | mk t r =>
      rw [hr] at h
      cases r with
      | none => exact absurd rfl h
      | some e => rfl

/-- Witness for C2 at a concrete one-message batch. -/
theorem c2_witness :
    (handleMessageBatch dec0 cb0 "sb-0001" [JSONValue.obj msg0]).2 = none ∧
    processFrame dec0 cb0 "topic1" "sb-0001" (some (JSONValue.arr [JSONValue.obj msg0])) =
      ((handleMessageBatch dec0 cb0 "sb-0001" [JSONValue.obj msg0]).1,
       LoopEffect.ackContinue ⟨"ack", "topic1"⟩) :=
  ⟨rfl, (c2_eventLoop_ack_iff dec0 cb0 "topic1" "sb-0001" [JSONValue.obj msg0]).1 rfl⟩

/-- C9: a receipt with non-empty requestId and type in its headers produces
exactly one BlockchainOpUpdate, succeeded for type TransactionSuccess and
failed for any other type; a receipt missing either field produces no
callback. -/
theorem c9_handleReceipt (reply : JSONObject) :
    (getString (getObject reply "headers") "requestId" ≠ "" →
      getString (getObject reply "headers") "type" ≠ "" →
      handleReceipt reply =
        [CallbackCall.blockchainOpUpdate
          (getString (getObject reply "headers") "requestId")
          (if getString (getObject reply "headers") "type" = "TransactionSuccess"
            then OpStatus.succeeded else OpStatus.failed)
          (getString reply "transactionId") (getString reply "errorMessage") reply]) ∧
    (getString (getObject reply "headers") "requestId" = "" ∨
      getString (getObject reply "headers") "type" = "" →
      handleReceipt reply = []) := by
  constructor
  · intro hreq htyp
    unfold handleReceipt
    rw [if_neg (by push_neg; exact ⟨hreq, htyp⟩)]
    by_cases hts : getString (getObject reply "headers") "type" = "TransactionSuccess"
    · rw [if_neg (by simpa using hts), if_pos hts]
    · rw [if_pos hts, if_neg hts]
  · intro hor
    unfold handleReceipt
    rw [if_pos hor]

/-- Concrete successful receipt used as witness data. -/
def replyOk : JSONObject := [
  ("headers", JSONValue.obj [("requestId", JSONValue.str "r1"), ("type", JSONValue.str "TransactionSuccess")]),
  ("transactionId", JSONValue.str "0xth1")]

/-- Concrete failed receipt used as witness data. -/
def replyFail : JSONObject := [
  ("headers", JSONValue.obj [("requestId", JSONValue.str "r2"), ("type", JSONValue.str "TransactionFailure")]),
  ("transactionId", JSONValue.str "0xth2"),
  ("errorMessage", JSONValue.str "bad")]

/-- Concrete receipt missing its requestId used as witness data. -/
def replyMissing : JSONObject := [
  ("headers", JSONValue.obj [("type", JSONValue.str "TransactionSuccess")])]

/-- Witness for C9 at three concrete receipts. -/
theorem c9_witness :
    handleReceipt replyOk =
      [CallbackCall.blockchainOpUpdate "r1" OpStatus.succeeded "0xth1" "" replyOk] ∧
    handleReceipt replyFail =
      [CallbackCall.blockchainOpUpdate "r2" OpStatus.failed "0xth2" "bad" replyFail] ∧
    handleReceipt replyMissing = [] :=
  ⟨(c9_handleReceipt replyOk).1 (by decide) (by decide),
   (c9_handleReceipt replyFail).1 (by decide) (by decide),
   (c9_handleReceipt replyMissing).2 (Or.inl (by decide))⟩

/-- C4 counterexample: a message whose subId differs from the active
BatchPin subscription but whose payload does not decode produces no
callback at all — in particular no BlockchainEvent, contradicting the
claim's unconditional per-message guarantee. -/
theorem c4_counterexample :
    getString [("subId", JSONValue.str "other")] "subId" ≠ "sb-0001" ∧
    handleMessageBatch (fun _ => none) cb0 "sb-0001"
      [JSONValue.obj [("subId", JSONValue.str "other")]] = ([], none) ∧
    (∀ ev, CallbackCall.blockchainEvent ev ∉
      (handleMessageBatch (fun _ => none) cb0 "sb-0001"
        [JSONValue.obj [("subId", JSONValue.str "other")]]).1) := by
  refine ⟨by decide, rfl, ?_⟩
  intro ev hmem
  have h : (handleMessageBatch (fun _ => none) cb0 "sb-0001"
      [JSONValue.obj [("subId", JSONValue.str "other")]]).1 = [] := rfl
  rw [h] at hmem
  exact List.not_mem_nil _ hmem

/-- The Event that parseBlockchainEvent constructs from a message whose
payload decoded to pl (a proof-side name for the construction). -/
def parsedEvent (m pl : JSONObject) : Event :=
  { blockchainTXID := getString m "transactionId"
    source := "fabric"
    name := getString m "eventName"
    protocolID := fmtProtocolID (getInt64 m "blockNumber")
      (getInt64 m "transactionIndex") (getInt64 m "eventIndex")
    output := pl
    info := m.filter (fun kv => kv.1 != "payload")
    timestamp := getInt64 m "timestamp"
    location := buildEventLocationString (getString m "chaincodeId")
    signature := getString m "eventName" }

/-- parseBlockchainEvent succeeds with parsedEvent when the payload
decodes. -/
theorem parseBlockchainEvent_some (dec : PayloadDec) (m pl : JSONObject)
    (hdec : dec (getString m "payload") = some pl) :
    parseBlockchainEvent dec m = some (parsedEvent m pl) := by
  simp only [parseBlockchainEvent, parsedEvent]
  rw [hdec]

/-- C4 (amended): for a message whose subId differs from the active BatchPin
subscription and whose payload decodes, handleContractEvent invokes
BlockchainEvent exactly once carrying that subId (and it is the first
callback the batch loop emits when reaching that message), and
handleContractEvent never invokes BatchPinComplete. -/
theorem c4_contractEvent_amended (dec : PayloadDec) (cb : Cb) (sub : String)
    (m : JSONObject) (rest : List JSONValue) (pl : JSONObject)
    (hsub : getString m "subId" ≠ sub)
    (hdec : dec (getString m "payload") = some pl) :
    ∃ ev : Event, parseBlockchainEvent dec m = some ev ∧
      handleContractEvent dec cb m =
        ([CallbackCall.blockchainEvent ⟨ev, getString m "subId"⟩],
         cb (CallbackCall.blockchainEvent ⟨ev, getString m "subId"⟩)) ∧
      (∃ t r, handleMessageBatch dec cb sub (JSONValue.obj m :: rest) =
        (CallbackCall.blockchainEvent ⟨ev, getString m "subId"⟩ :: t, r)) ∧
      (∀ b v, CallbackCall.batchPinComplete b v ∉ (handleContractEvent dec cb m).1) := by
  have hev := parseBlockchainEvent_some dec m pl hdec
  have hce : handleContractEvent dec cb m =
      ([CallbackCall.blockchainEvent ⟨parsedEvent m pl, getString m "subId"⟩],
       cb (CallbackCall.blockchainEvent ⟨parsedEvent m pl, getString m "subId"⟩)) := by
    simp only [handleContractEvent]
    rw [hev]
    rfl
  refine ⟨parsedEvent m pl, hev, hce, ?_, ?_⟩
  · have hd : dispatchMessage dec cb sub m =
        handleContractEvent dec cb m := by
      unfold dispatchMessage
      rw [if_neg hsub]
    cases hcb : cb (CallbackCall.blockchainEvent ⟨parsedEvent m pl, getString m "subId"⟩) with
    | some e =>
      refine ⟨[], some e, ?_⟩
      simp only [handleMessageBatch, hd, hce, hcb]
    | none =>
      refine ⟨(handleMessageBatch dec cb sub rest).1, (handleMessageBatch dec cb sub rest).2, ?_⟩
      simp only [handleMessageBatch, hd, hce, hcb]
      rfl
  · intro b v hmem
    rw [hce] at hmem
    simp at hmem

/-- Witness for C4's amended statement at a concrete custom-contract
message. -/
theorem c4_witness :
    getString msgA "subId" ≠ "sb-9999" ∧
    (∃ ev : Event, parseBlockchainEvent decA msgA = some ev ∧
      handleContractEvent decA cb0 msgA =
        ([CallbackCall.blockchainEvent ⟨ev, getString msgA "subId"⟩],
         cb0 (CallbackCall.blockchainEvent ⟨ev, getString msgA "subId"⟩)) ∧
      (∃ t r, handleMessageBatch decA cb0 "sb-9999" [JSONValue.obj msgA] =
        (CallbackCall.blockchainEvent ⟨ev, getString msgA "subId"⟩ :: t, r)) ∧
      (∀ b v, CallbackCall.batchPinComplete b v ∉ (handleContractEvent decA cb0 msgA).1)) :=
  ⟨by decide, c4_contractEvent_amended decA cb0 "sb-9999" msgA [] payloadA (by decide) rfl⟩

/-- A batch element whose per-message dispatch performs exactly one callback
returning nil (a well-formed message). -/
def wellFormedMsg (dec : PayloadDec) (cb : Cb) (sub : String) (v : JSONValue) : Prop :=
  ∃ m c, v = JSONValue.obj m ∧ dispatchMessage dec cb sub m = ([c], none)

/-- A batch element that is a JSON object whose per-message dispatch
performs no callback and returns nil (a field-level malformed message,
logged and skipped). -/
def skippedMsg (dec : PayloadDec) (cb : Cb) (sub : String) (v : JSONValue) : Prop :=
  ∃ m, v = JSONValue.obj m ∧ dispatchMessage dec cb sub m = ([], none)

/-- A batch of well-formed messages yields one callback per message and no
error. -/
theorem handleMessageBatch_allWF (dec : PayloadDec) (cb : Cb) (sub : String)
    (msgs : List JSONValue)
    (h : ∀ v ∈ msgs, wellFormedMsg dec cb sub v) :
    (handleMessageBatch dec cb sub msgs).1.length = msgs.length ∧
    (handleMessageBatch dec cb sub msgs).2 = none := by
  revert h
  induction msgs with
  | nil => intro h; simp [handleMessageBatch]
  | cons v rest ih =>
    intro h
    obtain ⟨m, c, rfl, hm⟩ := h v (List.mem_cons_self v rest)
    have hr := ih (fun x hx => h x (List.mem_cons_of_mem _ hx))
    simp only [handleMessageBatch, hm]
    simp [hr.1, hr.2, Nat.add_comm]

/-- C5 (amended): a batch of a field-level malformed message (one whose
object fails payload, uuids, batchHash or context decoding, so that its
dispatch is skipped) among well-formed messages yields exactly one callback
per well-formed message and no error; the malformed message contributes
none. -/
theorem c5_skip_amended (dec : PayloadDec) (cb : Cb) (sub : String)
    (pre : List JSONValue) (bad : JSONValue) (post : List JSONValue)
    (hpre : ∀ v ∈ pre, wellFormedMsg dec cb sub v)
    (hbad : skippedMsg dec cb sub bad)
    (hpost : ∀ v ∈ post, wellFormedMsg dec cb sub v) :
    (handleMessageBatch dec cb sub (pre ++ bad :: post)).1.length = pre.length + post.length ∧
    (handleMessageBatch dec cb sub (pre ++ bad :: post)).2 = none := by
  revert hpre
  induction pre with
  | nil =>
    intro hpre
    obtain ⟨m, rfl, hm⟩ := hbad
    have hr := handleMessageBatch_allWF dec cb sub post hpost
    simp only [List.nil_append, handleMessageBatch, hm]
    simp [hr.1, hr.2]
  | cons v rest ih =>
    intro hpre
    obtain ⟨m, c, rfl, hm⟩ := hpre _ (List.mem_cons_self _ _)
    have hr := ih (fun x hx => hpre x (List.mem_cons_of_mem _ hx))
    simp only [List.cons_append, handleMessageBatch, hm]
    simp only [List.length_cons]
    constructor
    · simp [hr.1]
      omega
    · simp [hr.2]

/-- C5 counterexample: a two-element batch whose first element is malformed
by not being a JSON object and whose second is a fully well-formed BatchPin
event on the active subscription produces zero callbacks (the code returns
nil immediately at the non-object element, skipping the rest of the batch),
not the one callback the claim requires. -/
theorem c5_counterexample :
    (dispatchMessage dec0 cb0 "sb-0001" msg0).1.length = 1 ∧
    (dispatchMessage dec0 cb0 "sb-0001" msg0).2 = none ∧
    handleMessageBatch dec0 cb0 "sb-0001"
      [JSONValue.str "bogus", JSONValue.obj msg0] = ([], none) ∧
    [JSONValue.str "bogus", JSONValue.obj msg0].length - 1 = 1 :=
  ⟨rfl, rfl, rfl, rfl⟩

/-- Concrete malformed decoded payload whose uuids field is not valid hex. -/
def payloadBadUUIDs : JSONObject := [
  ("signer", JSONValue.str "signer1"),
  ("namespace", JSONValue.str "ns1"),
  ("uuids", JSONValue.str "0xzz"),
  ("batchHash", JSONValue.str "0x1111111111111111111111111111111111111111111111111111111111111111"),
  ("payloadRef", JSONValue.str ""),
  ("contexts", JSONValue.arr [])]

/-- Concrete inbound message carrying the malformed payload. -/
def msgBadUUIDs : JSONObject := [
  ("payload", JSONValue.str "payload-bad"),
  ("subId", JSONValue.str "sb-0001"),
  ("eventName", JSONValue.str "BatchPin")]

/-- Concrete payload decoder covering the well-formed and malformed witness
payloads. -/
def dec5 : PayloadDec := fun s =>
  if s = "payload-batchpin" then some payload0
  else if s = "payload-bad" then some payloadBadUUIDs
  else none

/-- Witness for C5's amended statement: one malformed (bad uuids) message
between two well-formed ones yields exactly two callbacks and no error. -/
theorem c5_witness :
    (handleMessageBatch dec5 cb0 "sb-0001"
      [JSONValue.obj msg0, JSONValue.obj msgBadUUIDs, JSONValue.obj msg0]).1.length = 2 ∧
    (handleMessageBatch dec5 cb0 "sb-0001"
      [JSONValue.obj msg0, JSONValue.obj msgBadUUIDs, JSONValue.obj msg0]).2 = none :=
  c5_skip_amended dec5 cb0 "sb-0001" [JSONValue.obj msg0] (JSONValue.obj msgBadUUIDs)
    [JSONValue.obj msg0]
    (by intro v hv; simp at hv; subst hv; exact ⟨msg0, _, rfl, rfl⟩)
    ⟨msgBadUUIDs, rfl, rfl⟩
    (by intro v hv; simp at hv; subst hv; exact ⟨msg0, _, rfl, rfl⟩)

/-- ConfigureContract either leaves the runtime state and contracts it was
given unchanged, or returns no error. -/
theorem ConfigureContract_shape (env : FabricEnv) (conf : FabricConf)
    (st : FireflyContractState) (contracts : FireFlyContracts) :
    (ConfigureContract env conf st contracts).1 = (st, contracts) ∨
    (ConfigureContract env conf st contracts).2 = none := by
  cases h : ConfigureContract env conf st contracts with
  | mk p e =>
    unfold ConfigureContract at h
    repeat' (first | split at h | simp only [] at h)
    all_goals first
      | exact Or.inl (congrArg Prod.fst h.symm)
      | exact Or.inr (congrArg Prod.snd h.symm)

/-- An erroring ConfigureContract returns exactly the inputs it was given
together with the error. -/
theorem ConfigureContract_of_err (env : FabricEnv) (conf : FabricConf)
    (st : FireflyContractState) (contracts : FireFlyContracts) (e : ErrMsg)
    (herr : (ConfigureContract env conf st contracts).2 = some e) :
    ConfigureContract env conf st contracts = ((st, contracts), some e) := by
  rcases ConfigureContract_shape env conf st contracts with h1 | h2
  · calc ConfigureContract env conf st contracts =
        ((ConfigureContract env conf st contracts).1,
         (ConfigureContract env conf st contracts).2) := rfl
    _ = ((st, contracts), some e) := by rw [h1, herr]
  · rw [herr] at h2
    exact absurd h2 (Option.some_ne_none e)

/-- C7: a termination event whose chaincodeId differs from the active
runtime chaincode is ignored: nil error, runtime state and both fields of
the contracts structure unchanged. -/
theorem c7_terminate_mismatch (env : FabricEnv) (conf : FabricConf)
    (st : FireflyContractState) (contracts : FireFlyContracts)
    (termination : Event)
    (hmm : getString termination.info "chaincodeId" ≠ st.chaincode) :
    TerminateContract env conf st contracts termination = ((st, contracts), none) := by
  unfold TerminateContract
  rw [if_pos hmm]

/-- C6: a termination event matching the active runtime chaincode, with the
next deployment configured and the subscription and version steps
succeeding, increments the active index by exactly one, appends exactly the
closed-out record (stamped with the event's ProtocolID as FinalEvent) to
Terminated, and publishes the next deployment's info into the new active
record and the runtime state. -/
theorem c6_terminate_success (env : FabricEnv) (conf : FabricConf)
    (st : FireflyContractState) (contracts : FireFlyContracts)
    (termination : Event) (chaincode2 fromBlock2 : String) (sub : SubInfo)
    (version : Int)
    (hmatch : getString termination.info "chaincodeId" = st.chaincode)
    (hres : resolveFireFlyContract conf (contracts.active.index + 1) =
      Except.ok (chaincode2, fromBlock2))
    (hsub : env.ensureFireFlySub ⟨conf.defaultChannel, chaincode2⟩ fromBlock2
      conf.streamID broadcastBatchEventName = Except.ok sub)
    (hver : getNetworkVersion env chaincode2 = Except.ok version) :
    TerminateContract env conf st contracts termination =
      ((⟨chaincode2, fromBlock2, version, sub.id⟩,
        ⟨⟨contracts.active.index + 1, "", some ⟨chaincode2, fromBlock2, sub.id⟩⟩,
         contracts.terminated ++ [{ contracts.active with finalEvent := termination.protocolID }]⟩),
       none) := by
  unfold TerminateContract
  rw [if_neg (fun hne => hne hmatch)]
  unfold ConfigureContract
  simp only [hres, hsub, hver]

/-- C8: a network-version query failure whose error text contains the
method-not-found message yields version 1 with no error; any other query
failure is returned from ConfigureContract with the runtime state and the
contracts structure unchanged. -/
theorem c8_networkVersion (env : FabricEnv) (conf : FabricConf)
    (st : FireflyContractState) (contracts : FireFlyContracts)
    (chaincode2 fromBlock2 : String) (sub : SubInfo) (e : ErrMsg)
    (he : env.networkVersionQuery chaincode2 = Except.error e) :
    (strContains e ("Function " ++ networkVersionMethodName ++ " not found") = true →
      getNetworkVersion env chaincode2 = Except.ok 1) ∧
    (strContains e ("Function " ++ networkVersionMethodName ++ " not found") = false →
      getNetworkVersion env chaincode2 = Except.error e ∧
      (resolveFireFlyContract conf contracts.active.index = Except.ok (chaincode2, fromBlock2) →
        env.ensureFireFlySub ⟨conf.defaultChannel, chaincode2⟩ fromBlock2
          conf.streamID broadcastBatchEventName = Except.ok sub →
        ConfigureContract env conf st contracts = ((st, contracts), some e))) := by
  constructor
  · intro hcont
    unfold getNetworkVersion
    simp [he, hcont]
  · intro hcont
    have hgv : getNetworkVersion env chaincode2 = Except.error e := by
      unfold getNetworkVersion
      simp [he, hcont]
    refine ⟨hgv, fun hres hsub => ?_⟩
    unfold ConfigureContract
    simp only [hres, hsub, hgv]

/-- C10: a matching termination event whose follow-on configuration fails
leaves the caller with both the error and a mutated contracts structure:
the stamped old active record already appended to Terminated and the bare
next-index record already installed as Active, while the runtime state is
unchanged. -/
theorem c10_terminate_non_atomic (env : FabricEnv) (conf : FabricConf)
    (st : FireflyContractState) (contracts : FireFlyContracts)
    (termination : Event) (e : ErrMsg)
    (hmatch : getString termination.info "chaincodeId" = st.chaincode)
    (herr : (ConfigureContract env conf st
      ⟨⟨contracts.active.index + 1, "", none⟩,
       contracts.terminated ++ [{ contracts.active with finalEvent := termination.protocolID }]⟩).2 = some e) :
    TerminateContract env conf st contracts termination =
      ((st, ⟨⟨contracts.active.index + 1, "", none⟩,
        contracts.terminated ++ [{ contracts.active with finalEvent := termination.protocolID }]⟩),
       some e) := by
  unfold TerminateContract
  rw [if_neg (fun hne => hne hmatch)]
  exact ConfigureContract_of_err env conf st _ e herr

/-- Concrete configuration with two deployments used as witness data. -/
def conf1 : FabricConf :=
  { defaultChannel := "ch1", streamID := "es1",
    contractConf := [⟨"cc0", "oldest"⟩, ⟨"cc1", "newest"⟩],
    deprecatedChaincode := "" }

/-- Concrete configuration with a single deployment used as witness data. -/
def conf2 : FabricConf :=
  { defaultChannel := "ch1", streamID := "es1",
    contractConf := [⟨"cc0", "oldest"⟩],
    deprecatedChaincode := "" }

/-- Concrete environment whose calls all succeed. -/
def env1 : FabricEnv :=
  { ensureFireFlySub := fun _ _ _ _ => Except.ok ⟨"sb-0002"⟩,
    networkVersionQuery := fun _ => Except.ok 2 }

/-- Concrete environment whose version query fails with the tolerated
method-not-found error text. -/
def envNF : FabricEnv :=
  { ensureFireFlySub := fun _ _ _ _ => Except.ok ⟨"sb-0002"⟩,
    networkVersionQuery := fun _ =>
      Except.error "fabconnect error: Function NetworkVersion not found in chaincode" }

/-- Concrete environment whose version query fails with an unrelated
error. -/
def envBoom : FabricEnv :=
  { ensureFireFlySub := fun _ _ _ _ => Except.ok ⟨"sb-0002"⟩,
    networkVersionQuery := fun _ => Except.error "boom" }

/-- Concrete runtime state bound to the first deployment. -/
def st1 : FireflyContractState := ⟨"cc0", "oldest", 1, "sb-0001"⟩

/-- Concrete contracts structure with the first deployment active. -/
def contractsW : FireFlyContracts :=
  ⟨⟨0, "", some ⟨"cc0", "oldest", "sb-0001"⟩⟩, []⟩

/-- Concrete termination event originating from the active chaincode. -/
def termEvent1 : Event :=
  { source := "fabric", name := "BatchPin",
    protocolID := "000000000042/000000/000001", output := [],
    info := [("chaincodeId", JSONValue.str "cc0")], timestamp := 0,
    blockchainTXID := "", location := "chaincode=cc0", signature := "BatchPin" }

/-- Concrete termination event originating from a stale chaincode. -/
def termEventStale : Event :=
  { source := "fabric", name := "BatchPin",
    protocolID := "000000000041/000000/000001", output := [],
    info := [("chaincodeId", JSONValue.str "ccX")], timestamp := 0,
    blockchainTXID := "", location := "chaincode=ccX", signature := "BatchPin" }

/-- Witness for C6: terminating the first deployment rolls forward to the
second. -/
theorem c6_witness :
    getString termEvent1.info "chaincodeId" = st1.chaincode ∧
    TerminateContract env1 conf1 st1 contractsW termEvent1 =
      ((⟨"cc1", "newest", 2, "sb-0002"⟩,
        ⟨⟨1, "", some ⟨"cc1", "newest", "sb-0002"⟩⟩,
         [⟨0, "000000000042/000000/000001", some ⟨"cc0", "oldest", "sb-0001"⟩⟩]⟩),
       none) :=
  ⟨rfl, c6_terminate_success env1 conf1 st1 contractsW termEvent1 "cc1" "newest"
    ⟨"sb-0002"⟩ 2 rfl rfl rfl rfl⟩

/-- Witness for C7: a stale termination event changes nothing. -/
theorem c7_witness :
    getString termEventStale.info "chaincodeId" ≠ st1.chaincode ∧
    TerminateContract env1 conf1 st1 contractsW termEventStale =
      ((st1, contractsW), none) :=
  ⟨by decide, c7_terminate_mismatch env1 conf1 st1 contractsW termEventStale (by decide)⟩

/-- Witness for C8: the method-not-found error text yields version 1, and an
unrelated query error is returned with nothing published. -/
theorem c8_witness :
    getNetworkVersion envNF "cc0" = Except.ok 1 ∧
    (getNetworkVersion envBoom "cc0" = Except.error "boom" ∧
      (resolveFireFlyContract conf1 contractsW.active.index = Except.ok ("cc0", "oldest") →
        envBoom.ensureFireFlySub ⟨conf1.defaultChannel, "cc0"⟩ "oldest"
          conf1.streamID broadcastBatchEventName = Except.ok ⟨"sb-0002"⟩ →
        ConfigureContract envBoom conf1 st1 contractsW = ((st1, contractsW), some "boom"))) :=
  ⟨(c8_networkVersion envNF conf1 st1 contractsW "cc0" "oldest" ⟨"sb-0002"⟩
      "fabconnect error: Function NetworkVersion not found in chaincode" rfl).1 (by decide),
   (c8_networkVersion envBoom conf1 st1 contractsW "cc0" "oldest" ⟨"sb-0002"⟩
      "boom" rfl).2 (by decide)⟩

/-- Witness for C10: terminating the only configured deployment fails to
configure its successor, yet the contracts structure is already mutated. -/
theorem c10_witness :
    getString termEvent1.info "chaincodeId" = st1.chaincode ∧
    TerminateContract env1 conf2 st1 contractsW termEvent1 =
      ((st1, ⟨⟨1, "", none⟩,
        [⟨0, "000000000042/000000/000001", some ⟨"cc0", "oldest", "sb-0001"⟩⟩]⟩),
       some "invalid FireFly contract index blockchain.fabric.fireflyContract[1]") :=
  ⟨rfl, c10_terminate_non_atomic env1 conf2 st1 contractsW termEvent1
    "invalid FireFly contract index blockchain.fabric.fireflyContract[1]" rfl rfl⟩

end FF
